import Mathlib

/-!
Shallow embedding of `src/syllabus_processor.py` (class `SyllabusProcessor`).

Python strings are modelled as Lean `String`; the Python string methods used
by the source (`str.strip`, `str.replace`, `str.startswith`, `str.split`)
are embedded as explicit functions on the underlying character lists.
Remote collaborators (the Gemini generation backend, the YouTube search
capability) are modelled as oracles passed to the embedded functions:
the code's behaviour is a pure function of what those collaborators return.
-/

/-- Characters stripped by Python `str.strip()` (the ASCII whitespace set). -/
def pySpace (c : Char) : Bool :=
  c = ' ' || c = '\t' || c = '\n' || c = '\r' || c = '\x0b' || c = '\x0c'

/-- Embedding of Python `str.strip()` on character lists: drop leading and
trailing whitespace. -/
def stripChars (cs : List Char) : List Char :=
  ((cs.dropWhile pySpace).reverse.dropWhile pySpace).reverse

/-- Embedding of Python `str.strip()` on strings. -/
def pyStrip (s : String) : String :=
  ⟨stripChars s.data⟩

/-- The fixed marker token `'Topic:'` of the extraction prompt (line 133). -/
def markerChars : List Char :=
  ['T', 'o', 'p', 'i', 'c', ':']

/-- Embedding of `line.replace('Topic:', '')` (line 134): Python `str.replace`
scans left to right and removes every non-overlapping occurrence of the
pattern, not only a leading one. -/
def removeMarker : List Char → List Char
  | 'T' :: 'o' :: 'p' :: 'i' :: 'c' :: ':' :: rest => removeMarker rest
  | c :: cs => c :: removeMarker cs
  | [] => []

/-- Whether `'Topic:'` occurs anywhere in the character list. -/
def containsMarker : List Char → Bool
  | 'T' :: 'o' :: 'p' :: 'i' :: 'c' :: ':' :: _ => true
  | _ :: cs => containsMarker cs
  | [] => false

/-- Embedding of Python `s.split('\n')` on character lists: split at every
newline, keeping empty segments. -/
def splitNL : List Char → List (List Char)
  | [] => [[]]
  | c :: cs =>
    if c = '\n' then [] :: splitNL cs
    else
      match splitNL cs with
      | [] => [[c]]
      | l :: ls => (c :: l) :: ls

/-- Embedding of Python `topics_text.split('\n')` (line 132). -/
def splitLines (s : String) : List String :=
  (splitNL s.data).map (fun l => ⟨l⟩)

/-- One iteration of the extraction loop (lines 133-136): a line contributes
a topic iff it starts with `'Topic:'` and removing every `'Topic:'`
occurrence and stripping leaves a non-empty string. -/
def lineTopic (line : String) : Option String :=
  if markerChars.isPrefixOf line.data then
    let topic := pyStrip ⟨removeMarker line.data⟩
    if topic = "" then none else some topic
  else none

/-- The topic-extraction loop of `process_all` (lines 131-136), as a function
of the text returned by the generation call for the topic prompt. -/
def extractTopics (topicsText : String) : List String :=
  (splitLines topicsText).filterMap lineTopic

/-- The fallback description substituted on line 81 of
`get_topic_description`. -/
def descriptionFallback (topic : String) : String :=
  "Description generation failed for " ++ topic

/-- Embedding of `get_topic_description` (lines 63-83) as a function of the
topic and of the string `query_gemini` returned for the description prompt:
the code substitutes the fallback when the raw result is the empty string
(Python truthiness, line 79), and only then strips the chosen string
(line 83). -/
def get_topic_description (topic genResult : String) : String :=
  let description := if genResult = "" then descriptionFallback topic else genResult
  pyStrip description

/-! ## The retrying call client (`query_gemini`, lines 31-61)

The JSON body returned by the backend is modelled only at the shape the code
inspects on line 54: an optional list of candidates, each with an optional
content holding an optional list of parts, each with an optional text field.
A per-attempt backend oracle (`Nat → GeminiResponse`) states what the POST
on each attempt yields: a 429 status, a parsed JSON body, or a raised
exception (timeout, transport or parse failure). -/

/-- One part of a Gemini candidate content: the optional `text` field. -/
structure GeminiPart where
  text : Option String
deriving DecidableEq, Repr

/-- The optional `parts` field of a candidate `content` object. -/
structure GeminiContent where
  parts : Option (List GeminiPart)
deriving DecidableEq, Repr

/-- One candidate of a Gemini response: the optional `content` field. -/
structure GeminiCandidate where
  content : Option GeminiContent
deriving DecidableEq, Repr

/-- The parsed JSON body of a Gemini response: the optional `candidates`
list. -/
structure GeminiData where
  candidates : Option (List GeminiCandidate)
deriving DecidableEq, Repr

/-- What one attempt's POST yields: a 429 status, a parsed body, or an
exception raised inside the `try` block (timeout, transport or JSON parse
failure). -/
inductive GeminiResponse where
  | status429 : GeminiResponse
  | ok : GeminiData → GeminiResponse
  | exn : GeminiResponse
deriving DecidableEq, Repr

/-- Embedding of line 54,
`data.get('candidates', [{}])[0].get('content', {}).get('parts', [{}])[0].get('text', '')`:
each `.get` supplies a default for a missing key, but indexing `[0]` into a
present-but-empty list raises `IndexError`, modelled as `none`. -/
def extractText (data : GeminiData) : Option String :=
  match data.candidates.getD [⟨none⟩] with
  | [] => none
  | c :: _ =>
    match (c.content.getD ⟨none⟩).parts.getD [⟨none⟩] with
    | [] => none
    | p :: _ => some (p.text.getD "")

/-- A response shape the code does not expect: missing or empty candidates,
missing content, missing or empty parts, or a missing text field. -/
def unexpectedShape (data : GeminiData) : Bool :=
  match data.candidates with
  | none => true
  | some [] => true
  | some (c :: _) =>
    match c.content with
    | none => true
    | some ct =>
      match ct.parts with
      | none => true
      | some [] => true
      | some (p :: _) => p.text.isNone

/-- The value of `max_retries` (line 32). -/
def max_retries : Nat := 3

/-- The value of `base_delay` in seconds (line 33). -/
def base_delay : Nat := 1

/-- The observable outcome of one `query_gemini` call: the returned string,
how many attempts were made, and the total simulated seconds spent in
`asyncio.sleep`. -/
structure QueryOutcome where
  text : String
  attempts : Nat
  slept : Nat
deriving DecidableEq, Repr

/-- Embedding of the retry loop of `query_gemini` (lines 35-61), by recursion
on the remaining loop iterations with the current `attempt` index:
a 429 sleeps `base_delay * 2 ** attempt` and advances the attempt (lines
48-51, even on the last attempt); a successful extraction returns its text
(line 54); an exception — raised by the POST, the timeout, `.json()`, or the
`IndexError` of line 54 — sleeps only if attempts remain (lines 56-59);
falling out of the loop returns the empty string (line 61). -/
def queryGeminiAux (backend : Nat → GeminiResponse) : Nat → Nat → QueryOutcome
  | 0, _ => ⟨"", 0, 0⟩
  | rem + 1, attempt =>
    match backend attempt with
    | .status429 =>
      let rest := queryGeminiAux backend rem (attempt + 1)
      ⟨rest.text, rest.attempts + 1, rest.slept + base_delay * 2 ^ attempt⟩
    | .ok data =>
      match extractText data with
      | some t => ⟨t, 1, 0⟩
      | none =>
        if attempt < max_retries - 1 then
          let rest := queryGeminiAux backend rem (attempt + 1)
          ⟨rest.text, rest.attempts + 1, rest.slept + base_delay * 2 ^ attempt⟩
        else ⟨"", 1, 0⟩
    | .exn =>
      if attempt < max_retries - 1 then
        let rest := queryGeminiAux backend rem (attempt + 1)
        ⟨rest.text, rest.attempts + 1, rest.slept + base_delay * 2 ^ attempt⟩
      else ⟨"", 1, 0⟩

/-- Embedding of `query_gemini` (lines 31-61): run the loop for
`max_retries` iterations starting at attempt 0. -/
def query_gemini (backend : Nat → GeminiResponse) : QueryOutcome :=
  queryGeminiAux backend max_retries 0

/-- A backend that returns HTTP 429 on every attempt. -/
def always429 : Nat → GeminiResponse := fun _ => .status429

/-- A backend that raises a transport/timeout/parse exception on every
attempt. -/
def alwaysExn : Nat → GeminiResponse := fun _ => .exn

/-- A backend that returns the same parsed body on every attempt. -/
def constOk (data : GeminiData) : Nat → GeminiResponse := fun _ => .ok data

/-- A transient condition of one attempt: a rate-limit status or a raised
exception (timeout, transport or parse error). -/
def TransientAttempt (r : GeminiResponse) : Prop :=
  r = .status429 ∨ r = .exn

/-! ## The video path (`get_videos`, lines 85-95) -/

/-- Embedding of the `VideoContent` dataclass (lines 12-17). -/
structure VideoContent where
  url : String
  title : String
  duration : String
  views : String
deriving DecidableEq, Repr

/-- One raw result record of `YoutubeSearch(...).to_dict()`: the code reads
`url_suffix`, `title` and `duration` with mandatory indexing (`KeyError`
when missing) and `views` with `.get` and a default. -/
structure RawVideo where
  url_suffix : Option String
  title : Option String
  duration : Option String
  views : Option String
deriving DecidableEq, Repr

/-- What one `YoutubeSearch(query, max_results=5).to_dict()` call yields:
a raised exception, or a list of raw records. -/
inductive SearchOutcome where
  | raises : SearchOutcome
  | returns : List RawVideo → SearchOutcome
deriving DecidableEq, Repr

/-- Conversion of one raw record inside the comprehension of lines 88-93:
`none` models the `KeyError` raised by `r['url_suffix']`, `r['title']` or
`r['duration']`; `views` falls back to the sentinel via
`r.get('views', 'N/A')`. -/
def convertVideo (r : RawVideo) : Option VideoContent :=
  match r.url_suffix, r.title, r.duration with
  | some u, some t, some d =>
    some ⟨"https://youtube.com" ++ u, t, d, r.views.getD "N/A"⟩
  | _, _, _ => none

/-- The list comprehension of lines 88-93: any record's `KeyError` aborts
the whole comprehension, so the result is `none` as soon as one record
fails to convert. -/
def collectVideos : List RawVideo → Option (List VideoContent)
  | [] => some []
  | r :: rs =>
    match convertVideo r, collectVideos rs with
    | some v, some vs => some (v :: vs)
    | _, _ => none

/-- The query built on line 87, `f"tutorial {topic}"`. -/
def videoQuery (topic : String) : String :=
  "tutorial " ++ topic

/-- Embedding of `get_videos` (lines 85-95) against a search oracle mapping
each query string to what `YoutubeSearch(query, max_results=5).to_dict()`
yields: the `except` on line 94 converts every exception — from the search
itself or from a `KeyError` inside the comprehension — to the empty list. -/
def get_videos (search : String → SearchOutcome) (topic : String) : List VideoContent :=
  match search (videoQuery topic) with
  | .raises => []
  | .returns rs => (collectVideos rs).getD []

/-- A search oracle that raises on every query. -/
def raisingSearch : String → SearchOutcome := fun _ => .raises

/-! ## The per-topic enricher (`process_topic`, lines 97-110) and the
fan-out (`process_all`, lines 112-143)

`process_topic` is a pure function of the topic, of the string
`query_gemini` produced for that topic's description prompt (the prompt of
lines 65-73 is a fixed text parameterized by the topic, so the generation
backend is modelled as an oracle keyed by the topic), and of the search
oracle consumed by `get_videos`.

`asyncio.gather(*tasks)` (line 143) stores each task's result in the slot of
the task's position as tasks complete, and returns the slot list once every
slot is filled; `gatherInto` replays that completion process for an
arbitrary completion order, and `completionOrder` derives a completion order
from a per-task latency assignment. -/

/-- Embedding of the `TopicContent` dataclass (lines 19-23). -/
structure TopicContent where
  topic : String
  description : String
  videos : List VideoContent
deriving DecidableEq, Repr

/-- Embedding of `process_topic` (lines 97-110): the enriched record built
from the description raw result and the video search outcome. Note the
source awaits `get_topic_description` to completion on line 99 before
submitting `get_videos` to the executor on line 101; the record value is
the same either way, the sequencing is modelled by
`process_topic_schedule` below. -/
def process_topic (descRaw : String) (search : String → SearchOutcome)
    (topic : String) : TopicContent :=
  { topic := topic
    description := get_topic_description topic descRaw
    videos := get_videos search topic }

/-- Completion replay of `asyncio.gather`: each completing task `j` writes
its result `results[j]` into slot `j`; the order of writes is the completion
order. -/
def gatherInto (results : List TopicContent) :
    List Nat → List (Option TopicContent) → List (Option TopicContent)
  | [], slots => slots
  | j :: rest, slots => gatherInto results rest (slots.set j results[j]?)

/-- Embedding of `await asyncio.gather(*tasks)` (line 143): all slots start
empty, tasks complete in `order` writing their slots, and the filled slot
list is returned. -/
def asyncio_gather (results : List TopicContent) (order : List Nat) : List TopicContent :=
  (gatherInto results order (List.replicate results.length none)).reduceOption

/-- A completion order induced by a per-task latency assignment: tasks
finish sorted by latency (ties resolved arbitrarily by the sort). -/
def completionOrder (latency : Nat → Nat) (n : Nat) : List Nat :=
  (List.range n).mergeSort (fun i j => latency i ≤ latency j)

/-- Embedding of `process_all` (lines 112-143) from the extraction call
onward: `topicsText` is the string the generation backend returned for the
topic prompt (lines 114-128), `descO` maps each topic to the string
`query_gemini` returns for that topic's description prompt, `search` is the
video search oracle, and `latency` induces the completion order of the
gathered per-topic tasks. -/
def process_all (topicsText : String) (descO : String → String)
    (search : String → SearchOutcome) (latency : Nat → Nat) : List TopicContent :=
  let topics := extractTopics topicsText
  let results := topics.map (fun t => process_topic (descO t) search t)
  asyncio_gather results (completionOrder latency results.length)

/-- A description oracle on which every remote description call fails:
`query_gemini` returns the empty string after exhausting its retries. -/
def failingDesc : String → String := fun _ => ""

/-- Timing model of the awaits inside `process_topic` (lines 97-110): the
coroutine awaits the description call (line 99) to completion and only then
submits the video lookup to the executor and awaits it (lines 101-104).
Given the two durations, it yields
(description start, description finish, video start, video finish). -/
def process_topic_schedule (descDuration vidDuration : Nat) : Nat × Nat × Nat × Nat :=
  let descStart := 0
  let descFinish := descStart + descDuration
  let vidStart := descFinish
  let vidFinish := vidStart + vidDuration
  (descStart, descFinish, vidStart, vidFinish)

/-! ## Helper lemmas -/

lemma removeMarker_not_match (c : Char) (cs : List Char)
    (hne : ∀ (rest : List Char), c = 'T' → cs = 'o' :: 'p' :: 'i' :: 'c' :: ':' :: rest → False) :
    removeMarker (c :: cs) = c :: removeMarker cs := by
  rw [removeMarker.eq_def]
  split
  · rename_i rest heq
    rw [List.cons.injEq] at heq
    exact (hne rest heq.1 heq.2).elim
  · rename_i cc ccs hx heq
    injection heq with h1 h2
    subst h1; subst h2; rfl
  · rename_i heq
    exact (List.noConfusion heq)

lemma containsMarker_not_match (c : Char) (cs : List Char)
    (hne : ∀ (rest : List Char), c = 'T' → cs = 'o' :: 'p' :: 'i' :: 'c' :: ':' :: rest → False) :
    containsMarker (c :: cs) = containsMarker cs := by
  rw [containsMarker.eq_def]
  split
  · rename_i rest heq
    rw [List.cons.injEq] at heq
    exact (hne rest heq.1 heq.2).elim
  · rename_i cc ccs hx heq
    injection heq with h1 h2
    subst h1; subst h2; rfl
  · rename_i heq
    exact (List.noConfusion heq)

lemma removeMarker_of_not_contains (cs : List Char) (h : containsMarker cs = false) :
    removeMarker cs = cs := by
  induction cs using removeMarker.induct with
  | case1 rest ih => simp [containsMarker] at h
  | case2 c cs hne ih =>
    rw [removeMarker_not_match c cs hne]
    rw [containsMarker_not_match c cs hne] at h
    rw [ih h]
  | case3 => rfl

lemma marker_isPrefixOf_append (rest : List Char) :
    markerChars.isPrefixOf (markerChars ++ rest) = true := by
  show List.isPrefixOf ['T', 'o', 'p', 'i', 'c', ':']
    ('T' :: 'o' :: 'p' :: 'i' :: 'c' :: ':' :: rest) = true
  simp [List.isPrefixOf]

lemma stripChars_cons_ne_nil (c : Char) (l : List Char) (h : pySpace c = false) :
    stripChars (c :: l) ≠ [] := by
  intro hcon
  unfold stripChars at hcon
  rw [List.dropWhile_cons, h] at hcon
  simp only [Bool.false_eq_true, if_false] at hcon
  rw [List.reverse_eq_nil_iff, List.dropWhile_eq_nil_iff] at hcon
  have := hcon c (by simp)
  simp [h] at this

lemma gatherInto_length (res : List TopicContent) (order : List Nat)
    (slots : List (Option TopicContent)) :
    (gatherInto res order slots).length = slots.length := by
  induction order generalizing slots with
  | nil => rfl
  | cons j rest ih => simp [gatherInto, ih, List.length_set]

lemma gatherInto_getElem? (res : List TopicContent) (order : List Nat)
    (slots : List (Option TopicContent)) (k : Nat) (hk : k < slots.length) :
    (gatherInto res order slots)[k]? = if k ∈ order then some res[k]? else slots[k]? := by
  induction order generalizing slots with
  | nil => simp [gatherInto]
  | cons j rest ih =>
    have hk' : k < (slots.set j res[j]?).length := by simpa [List.length_set] using hk
    rw [gatherInto, ih _ hk']
    by_cases hmem : k ∈ rest
    · simp [hmem]
    · by_cases hkj : k = j
      · subst hkj
        simp [hmem, List.getElem?_set, hk]
      · simp [hmem, hkj, List.getElem?_set, Ne.symm hkj]

lemma gatherInto_complete (res : List TopicContent) (order : List Nat)
    (h : ∀ k, k < res.length → k ∈ order) :
    gatherInto res order (List.replicate res.length none) = res.map some := by
  apply List.ext_getElem?
  intro k
  by_cases hk : k < res.length
  · have hk' : k < (List.replicate res.length (none : Option TopicContent)).length := by
      simpa using hk
    rw [gatherInto_getElem? res order _ k hk', if_pos (h k hk)]
    simp [List.getElem?_map, List.getElem?_eq_getElem hk]
  · have h1 : (gatherInto res order (List.replicate res.length none)).length = res.length := by
      simp [gatherInto_length]
    have h2 : (res.map some).length = res.length := by simp
    rw [List.getElem?_eq_none (by omega), List.getElem?_eq_none (by omega)]

lemma asyncio_gather_of_covering (res : List TopicContent) (order : List Nat)
    (h : ∀ k, k < res.length → k ∈ order) :
    asyncio_gather res order = res := by
  rw [asyncio_gather, gatherInto_complete res order h]
  simp [List.reduceOption]

lemma completionOrder_mem (latency : Nat → Nat) (n k : Nat) (hk : k < n) :
    k ∈ completionOrder latency n := by
  have hp := List.mergeSort_perm (List.range n) (fun i j => latency i ≤ latency j)
  exact hp.mem_iff.mpr (List.mem_range.mpr hk)

lemma process_all_eq (topicsText : String) (descO : String → String)
    (search : String → SearchOutcome) (latency : Nat → Nat) :
    process_all topicsText descO search latency
      = (extractTopics topicsText).map (fun t => process_topic (descO t) search t) := by
  simp only [process_all]
  exact asyncio_gather_of_covering _ _ (fun k hk => completionOrder_mem _ _ _ hk)

lemma queryGeminiAux_attempts_le (backend : Nat → GeminiResponse) :
    ∀ rem attempt, (queryGeminiAux backend rem attempt).attempts ≤ rem := by
  intro rem
  induction rem with
  | zero => intro attempt; exact Nat.le.refl
  | succ n ih =>
    intro attempt
    cases hb : backend attempt with
    | status429 =>
      have := ih (attempt + 1)
      simp only [queryGeminiAux, hb]
      omega
    | ok data =>
      cases hx : extractText data with
      | some t => simp [queryGeminiAux, hb, hx]
      | none =>
        have := ih (attempt + 1)
        by_cases hlt : attempt < max_retries - 1 <;>
          simp only [queryGeminiAux, hb, hx, hlt, if_true, if_false] <;> omega
    | exn =>
      have := ih (attempt + 1)
      by_cases hlt : attempt < max_retries - 1 <;>
        simp only [queryGeminiAux, hb, hlt, if_true, if_false] <;> omega

lemma extractText_of_unexpected (data : GeminiData) (h : unexpectedShape data = true) :
    extractText data = none ∨ extractText data = some "" := by
  obtain ⟨cands⟩ := data
  cases cands with
  | none => right; rfl
  | some l =>
    cases l with
    | nil => left; rfl
    | cons c rest =>
      obtain ⟨ct⟩ := c
      cases ct with
      | none => right; rfl
      | some ctt =>
        obtain ⟨ps⟩ := ctt
        cases ps with
        | none => right; rfl
        | some pl =>
          cases pl with
          | nil => left; rfl
          | cons p pr =>
            obtain ⟨tx⟩ := p
            cases tx with
            | none => right; rfl
            | some s => simp [unexpectedShape] at h

lemma collectVideos_eq_none (rs : List RawVideo) (r0 : RawVideo)
    (hmem : r0 ∈ rs) (hconv : convertVideo r0 = none) :
    collectVideos rs = none := by
  induction rs with
  | nil => cases hmem
  | cons a as ih =>
    rcases List.mem_cons.mp hmem with h | h
    · subst h
      rw [collectVideos, hconv]
    · rw [collectVideos, ih h]
      cases convertVideo a <;> rfl

/-! ## The claims -/

/-- C1: for every list of extracted topics, the output of the fan-out
coordinator (the gathered result of `process_all`, line 143) is in the same
order as the input topic list, for every per-topic completion order induced
by a latency assignment: `asyncio.gather` reassembles results positionally,
not by completion order. -/
theorem c1_order_preservation (topicsText : String) (descO : String → String)
    (search : String → SearchOutcome) (latency : Nat → Nat) :
    (process_all topicsText descO search latency).map TopicContent.topic
      = extractTopics topicsText := by
  rw [process_all_eq, List.map_map]
  show List.map (fun t => t) (extractTopics topicsText) = extractTopics topicsText
  exact List.map_id' (extractTopics topicsText)

/-- C2: the result collection of `process_all` contains exactly one record
per extracted topic — its length equals the topic list's length for every
pair of oracles, and even when every remote call fails (description calls
all return the empty string, every video search raises) each topic still
yields its record, with the fallback description and an empty video list. -/
theorem c2_count_preservation (topicsText : String) (latency : Nat → Nat) :
    (∀ (descO : String → String) (search : String → SearchOutcome),
      (process_all topicsText descO search latency).length
        = (extractTopics topicsText).length)
    ∧ process_all topicsText failingDesc raisingSearch latency
      = (extractTopics topicsText).map
          (fun t => ⟨t, pyStrip (descriptionFallback t), []⟩) := by
  constructor
  · intro descO search
    rw [process_all_eq, List.length_map]
  · rw [process_all_eq]
    rfl

/-- C3 counterexample: when the generation backend returns the whitespace-only
string `" "`, the description `get_topic_description` produces is empty —
the emptiness test on line 79 runs before the `.strip()` on line 83, so the
fallback is not substituted and stripping then erases everything,
contradicting the claim that the description field is never empty. -/
theorem c3_counterexample : get_topic_description "Recursion" " " = "" := by decide

/-- C3 (amended): `get_topic_description` substitutes the fallback string
only when the raw generation result is exactly the empty string, and strips
the chosen string afterwards; consequently the description is non-empty
whenever the raw result is empty (the stripped fallback starts with a
non-whitespace character), but a whitespace-only raw result yields an empty
description. -/
theorem c3_fallback_on_empty (topic genResult : String) :
    get_topic_description topic genResult
      = pyStrip (if genResult = "" then descriptionFallback topic else genResult)
    ∧ get_topic_description topic "" ≠ "" := by
  refine ⟨rfl, ?_⟩
  intro hcon
  have hd := congrArg String.data hcon
  have hdata : (descriptionFallback topic).data
      = 'D' :: (("escription generation failed for ").data ++ topic.data) := by
    show ("Description generation failed for " ++ topic).data = _
    rw [String.data_append]
    rfl
  have hd' : stripChars ((descriptionFallback topic).data) = [] := hd
  rw [hdata] at hd'
  exact stripChars_cons_ne_nil 'D' _ (by decide) hd'

/-- C4: the retrying call client performs at most `max_retries = 3` attempts
for every backend; against a backend that returns a rate-limit status on
every attempt it returns the empty string after exactly 3 attempts, having
slept a total of `base_delay * (1 + 2 + 4)` seconds of exponential backoff. -/
theorem c4_retry_bound :
    (∀ backend : Nat → GeminiResponse, (query_gemini backend).attempts ≤ max_retries)
    ∧ query_gemini always429 = ⟨"", max_retries, base_delay * (1 + 2 + 4)⟩ := by
  constructor
  · intro backend
    exact queryGeminiAux_attempts_le backend max_retries 0
  · decide

/-- C5 counterexample: the claim says a qualifying line's topic is exactly
the trimmed remainder after the leading marker, but line 134 uses
`line.replace('Topic:', '')`, which removes every occurrence: on the line
`"Topic: Intro Topic: A"` the code extracts `"Intro  A"` while the trimmed
remainder after the leading marker is `"Intro Topic: A"`. -/
theorem c5_counterexample :
    lineTopic "Topic: Intro Topic: A" = some "Intro  A"
    ∧ extractTopics "Topic: Intro Topic: A" = ["Intro  A"]
    ∧ pyStrip ⟨("Topic: Intro Topic: A").data.drop 6⟩ = "Intro Topic: A"
    ∧ ("Intro  A" : String) ≠ "Intro Topic: A" := by decide

/-- C5 (amended): a line qualifies as a topic only if it starts with the
marker `'Topic:'`; the topic is the line with EVERY occurrence of the marker
removed and then trimmed, kept only when non-empty, and non-qualifying
lines are discarded in order. When the marker occurs only as the leading
prefix, this coincides with the trimmed remainder after the marker — in
particular the lines "Topic: A", "Note: B", "Topic:  C " yield exactly
["A", "C"]. -/
theorem c5_parser_strictness :
    extractTopics "Topic: A\nNote: B\nTopic:  C " = ["A", "C"]
    ∧ ∀ rest : List Char, containsMarker rest = false →
        lineTopic ⟨markerChars ++ rest⟩
          = (if pyStrip ⟨rest⟩ = "" then none else some (pyStrip ⟨rest⟩)) := by
  refine ⟨by decide, ?_⟩
  intro rest h
  have hpre : markerChars.isPrefixOf ((⟨markerChars ++ rest⟩ : String).data) = true :=
    marker_isPrefixOf_append rest
  have hrm : removeMarker ((⟨markerChars ++ rest⟩ : String).data) = rest := by
    show removeMarker (markerChars ++ rest) = rest
    have h1 : removeMarker (markerChars ++ rest) = removeMarker rest := rfl
    rw [h1, removeMarker_of_not_contains rest h]
  simp only [lineTopic, hpre, if_true, hrm]

/-- Witness for C5 (amended) at the concrete line "Topic: applied math ":
the remainder holds no second marker, so the topic is its trimmed value. -/
theorem c5_parser_strictness_witness :
    containsMarker (" applied math ").data = false
    ∧ lineTopic ⟨markerChars ++ (" applied math ").data⟩ = some "applied math" := by
  refine ⟨by decide, ?_⟩
  rw [c5_parser_strictness.2 (" applied math ").data (by decide)]
  decide

/-- C6 counterexample: against a backend whose first response is HTTP 200
with a body lacking the `candidates` key, `query_gemini` returns the empty
string on the very first attempt, with two retries still remaining — the
empty string is not returned only after exhausting all retry attempts. -/
theorem c6_counterexample :
    (query_gemini (constOk ⟨none⟩)).text = ""
    ∧ (query_gemini (constOk ⟨none⟩)).attempts = 1
    ∧ 1 < max_retries := by decide

/-- C6 (amended): the retrying call client never raises for transient
conditions — every attempt's rate-limit status or exception is absorbed and
the call still returns a string — and when EVERY attempt ends in a transient
condition (429 or a raised exception) it returns the empty string only
after consuming all `max_retries` attempts. A successful non-429 response
whose body extracts to the empty string (or to a missing-key default) can,
however, also return the empty string early. -/
theorem c6_transient_exhaustion (backend : Nat → GeminiResponse)
    (h : ∀ i, i < max_retries → TransientAttempt (backend i)) :
    (query_gemini backend).text = "" ∧ (query_gemini backend).attempts = max_retries := by
  have h0 := h 0 (by norm_num [max_retries])
  have h1 := h 1 (by norm_num [max_retries])
  have h2 := h 2 (by norm_num [max_retries])
  unfold TransientAttempt at h0 h1 h2
  obtain h0 | h0 := h0 <;> obtain h1 | h1 := h1 <;> obtain h2 | h2 := h2 <;>
    simp [query_gemini, queryGeminiAux, max_retries, h0, h1, h2]

/-- Witness for C6 (amended) at the always-rate-limited backend. -/
theorem c6_transient_exhaustion_witness :
    (query_gemini always429).text = "" ∧ (query_gemini always429).attempts = max_retries :=
  c6_transient_exhaustion always429 (fun _ _ => Or.inl rfl)

/-- C7: on a successful (non-429) response the client returns exactly what
line 54 extracts — the first candidate's first content part's text — and
for every body of unexpected shape (missing or empty candidates, missing
content, missing or empty parts, missing text) a backend consistently
producing it makes the call return the empty string rather than fail:
missing keys default to the empty string immediately, while the
`IndexError` of indexing an empty list is caught and retried until the
attempts are exhausted. -/
theorem c7_shape_handling (data : GeminiData) :
    (query_gemini (constOk data)).text = (extractText data).getD ""
    ∧ (unexpectedShape data = true → (query_gemini (constOk data)).text = "") := by
  have hmain : (query_gemini (constOk data)).text = (extractText data).getD "" := by
    cases hx : extractText data with
    | some t => simp [query_gemini, queryGeminiAux, constOk, hx]
    | none => simp [query_gemini, queryGeminiAux, constOk, hx, max_retries]
  refine ⟨hmain, fun hu => ?_⟩
  rw [hmain]
  rcases extractText_of_unexpected data hu with hx | hx <;> rw [hx] <;> rfl

/-- Witness for C7 at the body with a present-but-empty candidates list. -/
theorem c7_shape_handling_witness :
    (query_gemini (constOk ⟨some []⟩)).text = (extractText ⟨some []⟩).getD ""
    ∧ (query_gemini (constOk ⟨some []⟩)).text = "" :=
  ⟨(c7_shape_handling ⟨some []⟩).1, (c7_shape_handling ⟨some []⟩).2 (by decide)⟩

/-- C8: if the video search raises for a topic, the enriched record has an
empty video list (the `except` on line 94 swallows the exception, never
propagating it) and its description field is the same as it would be under
any other search outcome. -/
theorem c8_video_isolation (topic descRaw : String) (search : String → SearchOutcome) :
    (process_topic descRaw raisingSearch topic).videos = []
    ∧ (process_topic descRaw raisingSearch topic).description
        = (process_topic descRaw search topic).description :=
  ⟨rfl, rfl⟩

/-- C9: the two enrichment paths of `process_topic` do NOT run concurrently:
line 99 awaits the description call to completion before line 101 submits
the video lookup to the executor, so with a description latency of 2 and a
video latency of 3 the video fetch starts at time 2 (not 0) and the record
completes at time 5 = 2 + 3 (sequential), not at max 2 3 (concurrent) —
contradicting the claim and the source's own comment "Get videos in
parallel". -/
theorem c9_sequential_schedule :
    process_topic_schedule 2 3 = (0, 2, 2, 5)
    ∧ (2 : Nat) ≠ 0
    ∧ (5 : Nat) ≠ max 2 3 := by decide

/-- C10: one malformed search record (missing url suffix, title or duration)
makes the whole comprehension of lines 88-93 raise `KeyError`, so the
`except` discards every record and the topic's video list is entirely
empty; only the `views` field has a per-record fallback, the sentinel
`'N/A'`. -/
theorem c10_malformed_record_discards_all (topic : String)
    (search : String → SearchOutcome) (rs : List RawVideo) (r0 : RawVideo)
    (hs : search (videoQuery topic) = .returns rs)
    (hmem : r0 ∈ rs)
    (hmiss : r0.url_suffix = none ∨ r0.title = none ∨ r0.duration = none) :
    get_videos search topic = []
    ∧ ∀ (u t d : String) (v : Option String),
        convertVideo ⟨some u, some t, some d, v⟩
          = some ⟨"https://youtube.com" ++ u, t, d, v.getD "N/A"⟩ := by
  constructor
  · have hconv : convertVideo r0 = none := by
      obtain ⟨u, t, d, v⟩ := r0
      cases u <;> cases t <;> cases d <;> simp_all [convertVideo]
    rw [get_videos, hs]
    show (collectVideos rs).getD [] = []
    rw [collectVideos_eq_none rs r0 hmem hconv]
    rfl
  · intro u t d v
    rfl

/-- One-record search result lacking the url suffix, for the C10 witness. -/
def badSearch : String → SearchOutcome :=
  fun _ => .returns [⟨none, some "T1", some "3:00", none⟩]

/-- Witness for C10: the single record missing its url suffix empties the
whole video list, while a complete record converts with the views
sentinel. -/
theorem c10_malformed_record_discards_all_witness :
    get_videos badSearch "Recursion" = []
    ∧ convertVideo ⟨some "/watch", some "T1", some "3:00", none⟩
        = some ⟨"https://youtube.com" ++ "/watch", "T1", "3:00", Option.getD none "N/A"⟩ := by
  have h := c10_malformed_record_discards_all "Recursion" badSearch
    [⟨none, some "T1", some "3:00", none⟩] ⟨none, some "T1", some "3:00", none⟩
    rfl (List.mem_singleton.mpr rfl) (Or.inl rfl)
  exact ⟨h.1, h.2 "/watch" "T1" "3:00" none⟩
